import Mathlib

/-!
Verification development for the safe-core-wallet-deployment service.

The definitions below are a shallow embedding of the TypeScript source:
`src/services/SafeService.ts` (deployment orchestrator), `src/models/Safe.ts`
(persisted vault record and its instance methods), `src/config/networks.ts`
(static network registry) and the HTTP controller's all-failed check.
External effects (RPC calls, the Safe SDK, wall-clock time, UUID and salt
generation, the agent wallet) are passed in as explicit parameters; the
per-network deployment environment is a record of the observable answers the
chain gives during one attempt.  Persistence is modelled by explicit state
passing of the vault record; Mongoose map fields become association lists
with set-or-replace update, matching JS Map semantics.  Record fields not
touched by any orchestration logic under scrutiny (metadata timestamps,
analytics) are elided.
-/

namespace SafeVault

/-- Deployment status of one per-network record
(SafeService.ts line 35, Safe.ts line 20). -/
inductive DeploymentStatus
  | pending
  | deployed
  | failed
deriving DecidableEq, Repr

/-- Aggregate lifecycle status of a vault record (Safe.ts line 70). -/
inductive SafeStatus
  | initializing
  | active
  | suspended
  | archived
deriving DecidableEq, Repr

/-- Static per-network configuration (config/networks.ts, NetworkConfig);
only the fields the orchestrator reads are kept. -/
structure NetworkConfig where
  name : String
  chainId : Nat
  explorer : String
  currencySymbol : String
  isTestnet : Bool
deriving DecidableEq, Repr

/-- Association-list lookup, the model of JS object / Map key access. -/
def alookup {β : Type} : List (String × β) → String → Option β
  | [], _ => none
  | (k, v) :: rest, key => if k = key then some v else alookup rest key

/-- Set-or-replace update on an association list, the model of
JS Map.set and object key assignment (keeps insertion order). -/
def setEntry {β : Type} : List (String × β) → String → β → List (String × β)
  | [], k, v => [(k, v)]
  | (k0, v0) :: rest, k, v =>
      if k0 = k then (k, v) :: rest else (k0, v0) :: setEntry rest k v

/-- The NETWORKS registry (config/networks.ts lines 54-186). -/
def NETWORKS : List (String × NetworkConfig) :=
  [ ("ethereum", ⟨"Ethereum Mainnet", 1, "https://etherscan.io", "ETH", false⟩),
    ("sepolia", ⟨"Ethereum Sepolia", 11155111, "https://sepolia.etherscan.io", "SEP", true⟩),
    ("arbitrum", ⟨"Arbitrum One", 42161, "https://arbiscan.io", "ETH", false⟩),
    ("arbitrum_sepolia", ⟨"Arbitrum Sepolia", 421614, "https://sepolia.arbiscan.io", "SEP", true⟩),
    ("polygon", ⟨"Polygon Mainnet", 137, "https://polygonscan.com", "MATIC", false⟩),
    ("base", ⟨"Base Mainnet", 8453, "https://basescan.org", "ETH", false⟩),
    ("base_sepolia", ⟨"Base Sepolia", 84532, "https://sepolia.basescan.org", "SEP", true⟩),
    ("optimism", ⟨"Optimism Mainnet", 10, "https://optimistic.etherscan.io", "ETH", false⟩) ]

/-- getNetwork (config/networks.ts lines 277-283), with the throw on an
unknown key modelled as none. -/
def getNetworkQ (networkKey : String) : Option NetworkConfig :=
  alookup NETWORKS networkKey

/-- isNetworkSupported (config/networks.ts lines 314-318). -/
def isNetworkSupported (networkKey : String) : Bool :=
  (getNetworkQ networkKey).isSome

/-- Chain id read off the registry; orchestration code only evaluates this
on keys that passed validation, so the default is never reached there. -/
def networkChainId (networkKey : String) : Nat :=
  ((getNetworkQ networkKey).map NetworkConfig.chainId).getD 0

/-- DeploymentResult (SafeService.ts lines 26-39); Date becomes a Nat tick. -/
structure DeploymentResult where
  networkKey : String
  chainId : Nat
  address : String
  deploymentTxHash : Option String := none
  deploymentBlockNumber : Option Nat := none
  deploymentTimestamp : Nat
  gasUsed : Option String := none
  gasPrice : Option String := none
  deploymentStatus : DeploymentStatus
  explorerUrl : Option String := none
  isExisting : Option Bool := none
  error : Option String := none
deriving DecidableEq, Repr

/-- ISafeConfig (Safe.ts lines 25-30): the vault creation parameters. -/
structure ISafeConfig where
  owners : List String
  threshold : Nat
  saltNonce : String
  safeVersion : String
deriving DecidableEq, Repr

/-- ISafeDeployment (Safe.ts lines 4-23): one persisted per-network record. -/
structure ISafeDeployment where
  networkKey : String
  chainId : Nat
  address : String
  deploymentTxHash : Option String
  deploymentBlockNumber : Option Nat
  deploymentTimestamp : Nat
  gasUsed : Option String
  gasPrice : Option String
  deploymentStatus : DeploymentStatus
  explorerUrl : Option String
  isActive : Bool
deriving DecidableEq, Repr

/-- IUserInfo (Safe.ts lines 32-44), restricted to the identity fields the
orchestrator reads. -/
structure IUserInfo where
  userId : String
  walletAddress : String
deriving DecidableEq, Repr

/-- The persisted vault record ISafe (Safe.ts lines 64-83); metadata and
analytics fields, never read by the deployment logic, are elided. -/
structure ISafe where
  safeId : String
  userInfo : IUserInfo
  config : ISafeConfig
  deployments : List (String × ISafeDeployment)
  status : SafeStatus
deriving DecidableEq, Repr

/-- Conversion performed by addDeployment (Safe.ts lines 336-359) from the
service-level result to the persisted record; the service never supplies
isActive so the default true applies, and deploymentStatus is always set. -/
def toPersistedDeployment (networkKey : String) (d : DeploymentResult) : ISafeDeployment :=
  { networkKey := networkKey
    chainId := d.chainId
    address := d.address
    deploymentTxHash := d.deploymentTxHash
    deploymentBlockNumber := d.deploymentBlockNumber
    deploymentTimestamp := d.deploymentTimestamp
    gasUsed := d.gasUsed
    gasPrice := d.gasPrice
    deploymentStatus := d.deploymentStatus
    explorerUrl := d.explorerUrl
    isActive := true }

/-- addDeployment (Safe.ts lines 336-359): set-or-replace the per-network
entry of the vault record's deployment map. -/
def addDeployment (safe : ISafe) (networkKey : String) (d : DeploymentResult) : ISafe :=
  { safe with
      deployments := setEntry safe.deployments networkKey (toPersistedDeployment networkKey d) }

/-- isDeployedOnNetwork (Safe.ts lines 375-382). -/
def isDeployedOnNetwork (safe : ISafe) (networkKey : String) : Bool :=
  match alookup safe.deployments networkKey with
  | some d => d.deploymentStatus == DeploymentStatus.deployed && d.isActive
  | none => false

/-- Predicate selecting successful results, as filtered throughout
SafeService.ts (deploymentStatus equal to deployed). -/
def isDeployedResult (d : DeploymentResult) : Bool :=
  d.deploymentStatus == DeploymentStatus.deployed

/-- The failed entry synthesised for a rejected attempt
(SafeService.ts lines 183-190 and 451-458). -/
def mkFailedResult (now : Nat) (networkKey : String) (errMsg : String) : DeploymentResult :=
  { networkKey := networkKey
    chainId := networkChainId networkKey
    address := ""
    deploymentTimestamp := now
    deploymentStatus := DeploymentStatus.failed
    error := some errMsg }

/-- Result-processing loop over the settled attempts
(SafeService.ts lines 172-195 and 437-460): a fulfilled attempt keeps its
value, a rejected one becomes a failed entry carrying the error message. -/
def processResults (now : Nat) :
    List (String × Except String DeploymentResult) → List (String × DeploymentResult)
  | [] => []
  | (nk, Except.ok r) :: rest => (nk, r) :: processResults now rest
  | (nk, Except.error e) :: rest => (nk, mkFailedResult now nk e) :: processResults now rest

/-- getCommonAddress (SafeService.ts lines 630-653): none when no attempt
succeeded, otherwise the first successful address (a spread of distinct
addresses only triggers a warning log, it does not change the result). -/
def getCommonAddress (deployments : List (String × DeploymentResult)) : Option String :=
  match (deployments.map Prod.snd).filter isDeployedResult with
  | [] => none
  | d :: _ => some d.address

/-- The hasSuccessfulDeployment accumulator of SafeService.ts
lines 595-603 and 435-449. -/
def hasSuccessfulDeployment (results : List (String × DeploymentResult)) : Bool :=
  results.any (fun p => isDeployedResult p.2)

/-- The persistence loop of updateSafeDeployments (SafeService.ts
lines 597-603) and of expansion (lines 441-449): only results whose status
is deployed are written into the vault record's deployment map. -/
def recordDeployedResults (safe : ISafe) : List (String × DeploymentResult) → ISafe
  | [] => safe
  | (nk, r) :: rest =>
      if isDeployedResult r
      then recordDeployedResults (addDeployment safe nk r) rest
      else recordDeployedResults safe rest

/-- updateSafeDeployments (SafeService.ts lines 586-613): persist the
deployed results, then promote the status to active when at least one
deployment succeeded and the record still reads initializing. -/
def updateSafeDeployments (safe : ISafe) (results : List (String × DeploymentResult)) : ISafe :=
  let safe1 := recordDeployedResults safe results
  if hasSuccessfulDeployment results && (safe1.status == SafeStatus.initializing)
  then { safe1 with status := SafeStatus.active }
  else safe1

/-- Caller-supplied options of deploySafesForUser (SafeService.ts
lines 19-24); none for the networks field means the default applies. -/
structure DeploymentConfig where
  networks : Option (List String) := none
  autoExpand : Bool := false
  description : String := ""
  tags : List String := []
deriving DecidableEq, Repr

/-- Default network set of deploySafesForUser (SafeService.ts line 108). -/
def defaultNetworks : List String := ["sepolia", "arbitrum_sepolia", "base_sepolia"]

/-- Aggregate response shape (SafeService.ts lines 41-47); the opaque
metadata pass-through is elided. -/
structure SafeDeploymentResponse where
  safeId : String
  config : ISafeConfig
  deployments : List (String × DeploymentResult)
  commonAddress : Option String
deriving DecidableEq, Repr

/-- The creation-parameter set built by deploySafesForUser
(SafeService.ts lines 128-140): user wallet plus agent wallet as owners,
threshold one, the generated salt, Safe version 1.4.1. -/
def mkSafeConfig (userInfo : IUserInfo) (agentAddress saltNonce : String) : ISafeConfig :=
  { owners := [userInfo.walletAddress, agentAddress]
    threshold := 1
    saltNonce := saltNonce
    safeVersion := "1.4.1" }

/-- The validation loop of deploySafesForUser (SafeService.ts
lines 119-123): the first unsupported network key, if any. -/
def firstUnsupported (networks : List String) : Option String :=
  networks.find? (fun nk => !(isNetworkSupported nk))

/-- deploySafesForUser (SafeService.ts lines 103-225).  The external
inputs are explicit parameters: agentAddress is the wallet derived from the
agent private key, saltNonce the generated salt, safeId the fresh UUID,
now the clock, and exec gives the settled outcome of the per-network
deployment promise (ok for a fulfilled attempt, error for a rejection).
The result pairs the returned response with the persisted vault record
after updateSafeDeployments ran. -/
def deploySafesForUser (userInfo : IUserInfo) (cfg : DeploymentConfig)
    (agentAddress saltNonce safeId : String) (now : Nat)
    (exec : String → Except String DeploymentResult) :
    Except String (SafeDeploymentResponse × ISafe) :=
  let networks := cfg.networks.getD defaultNetworks
  match firstUnsupported networks with
  | some nk => Except.error ("Unsupported network: " ++ nk)
  | none =>
      let safeConfig := mkSafeConfig userInfo agentAddress saltNonce
      let safeRecord : ISafe :=
        { safeId := safeId
          userInfo := userInfo
          config := safeConfig
          deployments := []
          status := SafeStatus.initializing }
      let deploymentResults := processResults now (networks.map (fun nk => (nk, exec nk)))
      let updatedSafe := updateSafeDeployments safeRecord deploymentResults
      Except.ok
        ({ safeId := safeId
           config := safeConfig
           deployments := deploymentResults
           commonAddress := getCommonAddress deploymentResults }, updatedSafe)

/-- Count of successful deployments computed by the HTTP controller
(SafeController deploySafes, successfulDeployments filter). -/
def countSuccessfulDeployments (deployments : List (String × DeploymentResult)) : Nat :=
  ((deployments.map Prod.snd).filter isDeployedResult).length

/-- The controller's all-failed detection (SafeController deploySafes):
respond 500 with the all-deployments-failed error exactly when the count
of successful deployments is zero. -/
def controllerReportsAllFailed (resp : SafeDeploymentResponse) : Bool :=
  countSuccessfulDeployments resp.deployments == 0

/-- The per-attempt parameter triple (safeId, networkKey, config) passed to
deploySafeOnNetwork by the expansion fan-out (SafeService.ts
lines 417-429): one call per not-yet-covered requested network, each
receiving the vault's stored config verbatim. -/
def expansionAttemptParams (safe : ISafe) (newNetworks : List String) :
    List (String × String × ISafeConfig) :=
  (newNetworks.filter (fun n => !(isDeployedOnNetwork safe n))).map
    (fun nk => (safe.safeId, nk, safe.config))

/-- expandSafeToNetworks (SafeService.ts lines 408-478).  The loaded vault
record is a parameter (the VaultNotFound rejection happens before this
logic); exec gives each per-network settled outcome as a function of the
network key and the config passed in.  Returns the response paired with
the vault record after the merge and the status promotion. -/
def expandSafeToNetworks (safe : ISafe) (newNetworks : List String) (now : Nat)
    (exec : String → ISafeConfig → Except String DeploymentResult) :
    Except String (SafeDeploymentResponse × ISafe) :=
  let networksToExpand := newNetworks.filter (fun n => !(isDeployedOnNetwork safe n))
  if networksToExpand.isEmpty then
    Except.error "Safe already deployed on all specified networks"
  else
    let newDeployments :=
      processResults now (networksToExpand.map (fun nk => (nk, exec nk safe.config)))
    let safe1 := recordDeployedResults safe newDeployments
    let safe2 :=
      if hasSuccessfulDeployment newDeployments && (safe1.status == SafeStatus.initializing)
      then { safe1 with status := SafeStatus.active }
      else safe1
    Except.ok
      ({ safeId := safe.safeId
         config := safe.config
         deployments := newDeployments
         commonAddress := getCommonAddress newDeployments }, safe2)

/-- Observable answers the chain and SDK give during one deployment attempt
on one network (deploySafeOnNetwork, SafeService.ts lines 244-396):
deployer balance, SDK initialization success, the predicted address, the
pre-existence check, transaction submission success, receipt presence,
post-deployment verification, and receipt data. -/
structure NetworkEnv where
  balance : Nat
  initOk : Bool
  predictedAddress : String
  codeAtPredicted : Bool
  submitOk : Bool
  receiptPresent : Bool
  verifyOk : Bool
  txHash : String
  blockNumber : Nat
  gasUsedAmount : Nat
  gasPriceAmount : Nat
deriving DecidableEq, Repr

deriving instance DecidableEq for Except

/-- Outcome of one deploySafeOnNetwork call: the settled result, whether a
creation transaction was submitted, and the deployment queue afterwards. -/
structure AttemptOutcome where
  result : Except String DeploymentResult
  txSubmitted : Bool
  queueAfter : List String
deriving DecidableEq, Repr

/-- The in-flight key of the deployment queue (SafeService.ts line 235). -/
def deploymentCacheKey (safeId networkKey : String) : String :=
  "deployment:" ++ safeId ++ ":" ++ networkKey

/-- Body of deploySafeOnNetwork after the guard (SafeService.ts
lines 244-396), in source order: network resolution, balance precondition,
SDK initialization, pre-existence short-circuit (status deployed with
isExisting true and no transaction), then submission, receipt wait and
verification for a fresh deployment.  The second component records whether
a creation transaction was submitted. -/
def deployBodyWith (network : NetworkConfig) (networkKey : String) (env : NetworkEnv)
    (now : Nat) : Except String DeploymentResult × Bool :=
  if env.balance == 0 then
        (Except.error ("No " ++ network.currencySymbol ++ " balance on " ++
          network.name ++ " for deployment"), false)
      else if !env.initOk then
        (Except.error ("Safe initialization failed for " ++ network.name), false)
      else if env.codeAtPredicted then
        (Except.ok
          { networkKey := networkKey
            chainId := network.chainId
            address := env.predictedAddress
            deploymentStatus := DeploymentStatus.deployed
            deploymentTimestamp := now
            explorerUrl := some (network.explorer ++ "/address/" ++ env.predictedAddress)
            isExisting := some true }, false)
      else if !env.submitOk then
        (Except.error ("Transaction submission failed on " ++ network.name), false)
      else if !env.receiptPresent then
        (Except.error "Transaction receipt not found", true)
      else if !env.verifyOk then
        (Except.error "Safe deployment verification failed", true)
      else
        (Except.ok
          { networkKey := networkKey
            chainId := network.chainId
            address := env.predictedAddress
            deploymentTxHash := some env.txHash
            deploymentBlockNumber := some env.blockNumber
            deploymentTimestamp := now
            gasUsed := some (toString env.gasUsedAmount)
            gasPrice := some (toString env.gasPriceAmount)
            deploymentStatus := DeploymentStatus.deployed
            explorerUrl := some (network.explorer ++ "/address/" ++ env.predictedAddress) }, true)

/-- The attempt body including network resolution (SafeService.ts line 245,
getNetwork throwing on an unknown key). -/
def deployBody (networkKey : String) (env : NetworkEnv) (now : Nat) :
    Except String DeploymentResult × Bool :=
  match getNetworkQ networkKey with
  | none => (Except.error ("Unsupported network: " ++ networkKey), false)
  | some network => deployBodyWith network networkKey env now

/-- deploySafeOnNetwork (SafeService.ts lines 230-403): reject when the
(safeId, networkKey) pair is already in the deployment queue, otherwise
mark it, run the body, and remove the mark on every exit path (the
finally block). -/
def deploySafeOnNetwork (queue : List String) (safeId networkKey : String)
    (safeConfig : ISafeConfig) (env : NetworkEnv) (now : Nat) : AttemptOutcome :=
  let cacheKey := deploymentCacheKey safeId networkKey
  if queue.contains cacheKey then
    { result := Except.error ("Deployment already in progress for " ++ networkKey)
      txSubmitted := false
      queueAfter := queue }
  else
    let body := deployBody networkKey env now
    { result := body.1
      txSubmitted := body.2
      queueAfter := (cacheKey :: queue).erase cacheKey }

/-- Chain-state evolution across one attempt: an attempt that returned a
successful result leaves contract code at the predicted address (the
pre-existing branch found it there; the fresh branch re-verified code
presence before returning, SafeService.ts lines 380-383).  A failed
attempt is not assumed to have changed the chain. -/
def envAfterAttempt (env : NetworkEnv) (networkKey : String) (now : Nat) : NetworkEnv :=
  match deployBody networkKey env now with
  | (Except.ok _, _) => { env with codeAtPredicted := true }
  | _ => env

/-! Concrete sample data used by the closed evaluation theorems below. -/

/-- A sample end user. -/
def userA : IUserInfo :=
  { userId := "user-1", walletAddress := "0x1111111111111111111111111111111111111111" }

/-- A sample agent wallet address. -/
def agentAddr : String := "0x2222222222222222222222222222222222222222"

/-- A sample generated salt nonce. -/
def saltW : String := "0x5a1700000000000000000000000000000000000000000000000000000000cafe"

/-- A sample deterministic deployment address. -/
def addrC : String := "0xcccccccccccccccccccccccccccccccccccccccc"

/-- The creation parameters built for the sample user and agent. -/
def cfgW : ISafeConfig := mkSafeConfig userA agentAddr saltW

/-- Options requesting only the sepolia network. -/
def cfgSepoliaOnly : DeploymentConfig := { networks := some ["sepolia"] }

/-- Settled outcomes in which every network attempt rejected. -/
def execAllFail : String → Except String DeploymentResult :=
  fun _ => Except.error "RPC unreachable"

/-- The response deploySafesForUser computes for the all-failed sepolia run. -/
def respAllFail : SafeDeploymentResponse :=
  { safeId := "vault-1"
    config := cfgW
    deployments := [("sepolia", mkFailedResult 0 "sepolia" "RPC unreachable")]
    commonAddress := none }

/-- The vault record persisted by the all-failed sepolia run. -/
def vaultAllFail : ISafe :=
  { safeId := "vault-1"
    userInfo := userA
    config := cfgW
    deployments := []
    status := SafeStatus.initializing }

/-- Options requesting the three default test networks explicitly. -/
def cfgThree : DeploymentConfig :=
  { networks := some ["sepolia", "arbitrum_sepolia", "base_sepolia"] }

/-- A fulfilled successful per-network result at the sample address. -/
def okRec (nk : String) : DeploymentResult :=
  { networkKey := nk
    chainId := networkChainId nk
    address := addrC
    deploymentStatus := DeploymentStatus.deployed
    deploymentTimestamp := 0 }

/-- Settled outcomes in which exactly the middle network rejected. -/
def execBfails : String → Except String DeploymentResult :=
  fun nk =>
    if nk = "arbitrum_sepolia" then Except.error "insufficient funds"
    else Except.ok (okRec nk)

/-- The processed per-network results of the middle-failure run. -/
def resultsB : List (String × DeploymentResult) :=
  processResults 0 ((cfgThree.networks.getD defaultNetworks).map (fun nk => (nk, execBfails nk)))

/-- The response of the middle-failure run. -/
def respB : SafeDeploymentResponse :=
  { safeId := "vault-3"
    config := cfgW
    deployments := resultsB
    commonAddress := getCommonAddress resultsB }

/-- The fresh vault record created by the middle-failure run. -/
def baseB : ISafe :=
  { safeId := "vault-3"
    userInfo := userA
    config := cfgW
    deployments := []
    status := SafeStatus.initializing }

/-- The persisted vault record after the middle-failure run. -/
def safeB : ISafe := updateSafeDeployments baseB resultsB

/-- A successful sepolia result used for persistence checks. -/
def depOkSep : DeploymentResult := okRec "sepolia"

/-- Two successful results landing at distinct addresses. -/
def depAddrA : DeploymentResult :=
  { networkKey := "sepolia"
    chainId := 11155111
    address := "0xaaaaaaaaaaaaaaaaaaaaaaaaaaaaaaaaaaaaaaaa"
    deploymentStatus := DeploymentStatus.deployed
    deploymentTimestamp := 0 }

/-- Companion of depAddrA on another network with a different address. -/
def depAddrB : DeploymentResult :=
  { networkKey := "base_sepolia"
    chainId := 84532
    address := "0xbbbbbbbbbbbbbbbbbbbbbbbbbbbbbbbbbbbbbbbb"
    deploymentStatus := DeploymentStatus.deployed
    deploymentTimestamp := 0 }

/-- An empty vault record in status initializing. -/
def vaultEmpty : ISafe :=
  { safeId := "vault-2"
    userInfo := userA
    config := cfgW
    deployments := []
    status := SafeStatus.initializing }

/-- A vault record already covered on sepolia and active. -/
def vaultCovered : ISafe :=
  { safeId := "vault-4"
    userInfo := userA
    config := cfgW
    deployments := [("sepolia", toPersistedDeployment "sepolia" depOkSep)]
    status := SafeStatus.active }

/-- Expansion outcomes in which every attempted network succeeds. -/
def execExpOk : String → ISafeConfig → Except String DeploymentResult :=
  fun nk _ => Except.ok (okRec nk)

/-- The networks actually attempted when expanding vaultCovered to
sepolia and base_sepolia. -/
def expFiltered : List String :=
  ["sepolia", "base_sepolia"].filter (fun n => !(isDeployedOnNetwork vaultCovered n))

/-- The processed results of that expansion. -/
def resultsExp : List (String × DeploymentResult) :=
  processResults 0 (expFiltered.map (fun nk => (nk, execExpOk nk vaultCovered.config)))

/-- The response of that expansion. -/
def respExp : SafeDeploymentResponse :=
  { safeId := vaultCovered.safeId
    config := vaultCovered.config
    deployments := resultsExp
    commonAddress := getCommonAddress resultsExp }

/-- The vault record after that expansion. -/
def safeExp : ISafe := updateSafeDeployments vaultCovered resultsExp

/-- A per-network environment in which the contract already sits at the
predicted address. -/
def envW : NetworkEnv :=
  { balance := 5
    initOk := true
    predictedAddress := addrC
    codeAtPredicted := true
    submitOk := true
    receiptPresent := true
    verifyOk := true
    txHash := "0xdddddddddddddddddddddddddddddddddddddddddddddddddddddddddddddddd"
    blockNumber := 100
    gasUsedAmount := 253000
    gasPriceAmount := 7 }

/-- The short-circuit result of an attempt on sepolia under envW. -/
def rW : DeploymentResult :=
  { networkKey := "sepolia"
    chainId := 11155111
    address := envW.predictedAddress
    deploymentStatus := DeploymentStatus.deployed
    deploymentTimestamp := 0
    explorerUrl := some ("https://sepolia.etherscan.io" ++ "/address/" ++ envW.predictedAddress)
    isExisting := some true }

/-! Helper lemmas about the association-list operations and the
result-processing loops. -/

theorem alookup_setEntry_self {β : Type} (l : List (String × β)) (k : String) (v : β) :
    alookup (setEntry l k v) k = some v := by
  induction l with
  | nil => simp [setEntry, alookup]
  | cons hd tl ih =>
      obtain ⟨k0, v0⟩ := hd
      by_cases h : k0 = k
      · simp [setEntry, h, alookup]
      · simp [setEntry, h, alookup, ih]

theorem alookup_setEntry_ne {β : Type} (l : List (String × β)) (k k' : String) (v : β)
    (h : k' ≠ k) : alookup (setEntry l k v) k' = alookup l k' := by
  induction l with
  | nil => simp [setEntry, alookup, Ne.symm h]
  | cons hd tl ih =>
      obtain ⟨k0, v0⟩ := hd
      by_cases hk : k0 = k
      · subst hk
        simp [setEntry, alookup, Ne.symm h]
      · simp [setEntry, hk, alookup, ih]

theorem recordDeployedResults_status (safe : ISafe)
    (results : List (String × DeploymentResult)) :
    (recordDeployedResults safe results).status = safe.status := by
  induction results generalizing safe with
  | nil => rfl
  | cons hd tl ih =>
      obtain ⟨nk, r⟩ := hd
      by_cases h : isDeployedResult r
      · simp [recordDeployedResults, h, ih, addDeployment]
      · simp [recordDeployedResults, h, ih]

theorem recordDeployedResults_config (safe : ISafe)
    (results : List (String × DeploymentResult)) :
    (recordDeployedResults safe results).config = safe.config := by
  induction results generalizing safe with
  | nil => rfl
  | cons hd tl ih =>
      obtain ⟨nk, r⟩ := hd
      by_cases h : isDeployedResult r
      · simp [recordDeployedResults, h, ih, addDeployment]
      · simp [recordDeployedResults, h, ih]

theorem alookup_recordDeployedResults_notmem (safe : ISafe)
    (results : List (String × DeploymentResult)) (nk : String)
    (h : nk ∉ results.map Prod.fst) :
    alookup (recordDeployedResults safe results).deployments nk =
      alookup safe.deployments nk := by
  induction results generalizing safe with
  | nil => rfl
  | cons hd tl ih =>
      obtain ⟨k0, r⟩ := hd
      have hsplit : ¬(nk = k0 ∨ nk ∈ tl.map Prod.fst) := by
        simpa using h
      push_neg at hsplit
      by_cases hd : isDeployedResult r
      · rw [recordDeployedResults]
        simp only [hd, if_true]
        rw [ih _ hsplit.2, addDeployment]
        exact alookup_setEntry_ne _ _ _ _ (fun he => hsplit.1 he)
      · rw [recordDeployedResults]
        simp only [hd, if_false]
        exact ih _ hsplit.2

theorem alookup_recordDeployedResults_mem (safe : ISafe)
    (results : List (String × DeploymentResult)) (nk : String) (r : DeploymentResult)
    (hnd : (results.map Prod.fst).Nodup) (hmem : (nk, r) ∈ results) :
    alookup (recordDeployedResults safe results).deployments nk =
      (if isDeployedResult r then some (toPersistedDeployment nk r)
       else alookup safe.deployments nk) := by
  induction results generalizing safe with
  | nil => cases hmem
  | cons hd tl ih =>
      obtain ⟨k0, r0⟩ := hd
      have hnd' : k0 ∉ tl.map Prod.fst ∧ (tl.map Prod.fst).Nodup :=
        List.nodup_cons.mp hnd
      rcases List.mem_cons.mp hmem with heq | htl
      · injection heq with hk hr
        subst hk
        subst hr
        by_cases hdep : isDeployedResult r
        · rw [recordDeployedResults, if_pos hdep, if_pos hdep]
          rw [alookup_recordDeployedResults_notmem _ _ _ hnd'.1, addDeployment]
          exact alookup_setEntry_self _ _ _
        · rw [recordDeployedResults, if_neg hdep, if_neg hdep]
          exact alookup_recordDeployedResults_notmem _ _ _ hnd'.1
      · have hkne : k0 ≠ nk := by
          intro he
          exact hnd'.1 (he ▸ (List.mem_map.mpr ⟨(nk, r), htl, rfl⟩))
        by_cases hdep : isDeployedResult r0
        · rw [recordDeployedResults, if_pos hdep]
          rw [ih _ hnd'.2 htl]
          by_cases hdep2 : isDeployedResult r
          · rw [if_pos hdep2, if_pos hdep2]
          · rw [if_neg hdep2, if_neg hdep2, addDeployment]
            exact alookup_setEntry_ne _ _ _ _ (Ne.symm hkne)
        · rw [recordDeployedResults, if_neg hdep]
          exact ih _ hnd'.2 htl

theorem processResults_map_fst (now : Nat)
    (l : List (String × Except String DeploymentResult)) :
    (processResults now l).map Prod.fst = l.map Prod.fst := by
  induction l with
  | nil => rfl
  | cons hd tl ih =>
      obtain ⟨nk, o⟩ := hd
      cases o <;> simp [processResults, ih]

theorem alookup_processResults (now : Nat) (networks : List String)
    (exec : String → Except String DeploymentResult) (nk : String)
    (hnd : networks.Nodup) (hmem : nk ∈ networks) :
    alookup (processResults now (networks.map (fun k => (k, exec k)))) nk =
      (match exec nk with
       | Except.ok r => some r
       | Except.error e => some (mkFailedResult now nk e)) := by
  induction networks with
  | nil => cases hmem
  | cons hd tl ih =>
      have hnd' := List.nodup_cons.mp hnd
      rcases List.mem_cons.mp hmem with heq | htl
      · subst heq
        cases hexec : exec nk <;> simp [processResults, alookup, hexec]
      · have hne : hd ≠ nk := fun he => hnd'.1 (he ▸ htl)
        cases hexec : exec hd <;>
          simp [processResults, alookup, hne, hexec, ih hnd'.2 htl]

theorem mkFailedResult_not_deployed (now : Nat) (nk e : String) :
    isDeployedResult (mkFailedResult now nk e) = false := by
  simp [isDeployedResult, mkFailedResult]

theorem hasSuccess_processResults_allfail (now : Nat)
    (l : List (String × Except String DeploymentResult))
    (h : ∀ p ∈ l, ∃ e, p.2 = Except.error e) :
    hasSuccessfulDeployment (processResults now l) = false := by
  induction l with
  | nil => rfl
  | cons hd tl ih =>
      obtain ⟨nk, o⟩ := hd
      obtain ⟨e, he⟩ := h (nk, o) (List.mem_cons_self _ _)
      subst he
      simp only [processResults]
      have := ih (fun p hp => h p (List.mem_cons_of_mem _ hp))
      simp [hasSuccessfulDeployment, mkFailedResult_not_deployed] at this ⊢
      exact this

theorem countSuccessful_processResults_allfail (now : Nat)
    (l : List (String × Except String DeploymentResult))
    (h : ∀ p ∈ l, ∃ e, p.2 = Except.error e) :
    countSuccessfulDeployments (processResults now l) = 0 := by
  induction l with
  | nil => rfl
  | cons hd tl ih =>
      obtain ⟨nk, o⟩ := hd
      obtain ⟨e, he⟩ := h (nk, o) (List.mem_cons_self _ _)
      subst he
      simp only [processResults]
      have := ih (fun p hp => h p (List.mem_cons_of_mem _ hp))
      simpa [countSuccessfulDeployments, mkFailedResult_not_deployed] using this

theorem updateSafeDeployments_status (safe : ISafe)
    (results : List (String × DeploymentResult)) :
    (updateSafeDeployments safe results).status =
      (if hasSuccessfulDeployment results && (safe.status == SafeStatus.initializing)
       then SafeStatus.active else safe.status) := by
  unfold updateSafeDeployments
  by_cases hs : (hasSuccessfulDeployment results &&
      ((recordDeployedResults safe results).status == SafeStatus.initializing)) = true
  · rw [if_pos hs]
    rw [recordDeployedResults_status] at hs
    rw [if_pos hs]
  · rw [if_neg hs]
    have hs' := hs
    rw [recordDeployedResults_status] at hs'
    rw [if_neg hs', recordDeployedResults_status]

theorem updateSafeDeployments_config (safe : ISafe)
    (results : List (String × DeploymentResult)) :
    (updateSafeDeployments safe results).config = safe.config := by
  unfold updateSafeDeployments
  by_cases hs : (hasSuccessfulDeployment results &&
      ((recordDeployedResults safe results).status == SafeStatus.initializing)) = true
  · rw [if_pos hs]
    exact recordDeployedResults_config safe results
  · rw [if_neg hs]
    exact recordDeployedResults_config safe results

theorem updateSafeDeployments_deployments (safe : ISafe)
    (results : List (String × DeploymentResult)) :
    (updateSafeDeployments safe results).deployments =
      (recordDeployedResults safe results).deployments := by
  unfold updateSafeDeployments
  by_cases hs : (hasSuccessfulDeployment results &&
      ((recordDeployedResults safe results).status == SafeStatus.initializing)) = true
  · rw [if_pos hs]
  · rw [if_neg hs]

theorem deploySafesForUser_ok_eq (userInfo : IUserInfo) (cfg : DeploymentConfig)
    (agentAddress saltNonce safeId : String) (now : Nat)
    (exec : String → Except String DeploymentResult)
    (resp : SafeDeploymentResponse) (safe' : ISafe)
    (hok : deploySafesForUser userInfo cfg agentAddress saltNonce safeId now exec =
      Except.ok (resp, safe')) :
    resp.deployments =
      processResults now ((cfg.networks.getD defaultNetworks).map (fun nk => (nk, exec nk))) ∧
    resp.config = mkSafeConfig userInfo agentAddress saltNonce ∧
    resp.commonAddress = getCommonAddress resp.deployments ∧
    resp.safeId = safeId ∧
    safe' = updateSafeDeployments
      { safeId := safeId
        userInfo := userInfo
        config := mkSafeConfig userInfo agentAddress saltNonce
        deployments := []
        status := SafeStatus.initializing } resp.deployments := by
  simp only [deploySafesForUser] at hok
  cases hfu : firstUnsupported (cfg.networks.getD defaultNetworks) with
  | some nk =>
      rw [hfu] at hok
      cases hok
  | none =>
      rw [hfu] at hok
      injection hok with h
      injection h with h1 h2
      subst h1
      subst h2
      exact ⟨rfl, rfl, rfl, rfl, rfl⟩

theorem expandSafeToNetworks_error_iff (safe : ISafe) (newNetworks : List String)
    (now : Nat) (exec : String → ISafeConfig → Except String DeploymentResult) :
    (expandSafeToNetworks safe newNetworks now exec =
        Except.error "Safe already deployed on all specified networks") ↔
      newNetworks.filter (fun n => !(isDeployedOnNetwork safe n)) = [] := by
  simp only [expandSafeToNetworks]
  by_cases he : (newNetworks.filter (fun n => !(isDeployedOnNetwork safe n))).isEmpty = true
  · rw [if_pos he]
    simp [List.isEmpty_iff] at he
    simpa using he
  · rw [if_neg he]
    simp [List.isEmpty_iff] at he
    simp [he]

theorem expandSafeToNetworks_ok_eq (safe : ISafe) (newNetworks : List String)
    (now : Nat) (exec : String → ISafeConfig → Except String DeploymentResult)
    (resp : SafeDeploymentResponse) (safe' : ISafe)
    (hok : expandSafeToNetworks safe newNetworks now exec = Except.ok (resp, safe')) :
    resp.deployments =
      processResults now ((newNetworks.filter (fun n => !(isDeployedOnNetwork safe n))).map
        (fun nk => (nk, exec nk safe.config))) ∧
    resp.config = safe.config ∧
    resp.commonAddress = getCommonAddress resp.deployments ∧
    resp.safeId = safe.safeId ∧
    safe' = updateSafeDeployments safe resp.deployments := by
  simp only [expandSafeToNetworks] at hok
  by_cases he : (newNetworks.filter (fun n => !(isDeployedOnNetwork safe n))).isEmpty = true
  · rw [if_pos he] at hok
    cases hok
  · rw [if_neg he] at hok
    injection hok with h
    injection h with h1 h2
    subst h1
    subst h2
    exact ⟨rfl, rfl, rfl, rfl, rfl⟩

theorem deployBody_some (nk : String) (network : NetworkConfig) (env : NetworkEnv)
    (now : Nat) (hn : getNetworkQ nk = some network) :
    deployBody nk env now = deployBodyWith network nk env now := by
  unfold deployBody
  rw [hn]

theorem deployBodyWith_ok_inv (network : NetworkConfig) (nk : String) (env : NetworkEnv)
    (now : Nat) (r : DeploymentResult)
    (h : (deployBodyWith network nk env now).1 = Except.ok r) :
    env.balance ≠ 0 ∧ env.initOk = true ∧
    r.address = env.predictedAddress ∧
    r.deploymentStatus = DeploymentStatus.deployed ∧
    (env.codeAtPredicted = true →
      (deployBodyWith network nk env now).2 = false ∧ r.isExisting = some true) := by
  unfold deployBodyWith at h ⊢
  by_cases h1 : (env.balance == 0) = true
  · rw [if_pos h1] at h
    simp at h
  · rw [if_neg h1] at h ⊢
    by_cases h2 : (!env.initOk) = true
    · rw [if_pos h2] at h
      simp at h
    · rw [if_neg h2] at h ⊢
      by_cases h3 : env.codeAtPredicted = true
      · rw [if_pos h3] at h ⊢
        injection h with hr
        subst hr
        exact ⟨by simpa using h1, by simpa using h2, rfl, rfl, fun hc => ⟨rfl, rfl⟩⟩
      · rw [if_neg h3] at h ⊢
        by_cases h4 : (!env.submitOk) = true
        · rw [if_pos h4] at h
          simp at h
        · rw [if_neg h4] at h ⊢
          by_cases h5 : (!env.receiptPresent) = true
          · rw [if_pos h5] at h
            simp at h
          · rw [if_neg h5] at h ⊢
            by_cases h6 : (!env.verifyOk) = true
            · rw [if_pos h6] at h
              simp at h
            · rw [if_neg h6] at h ⊢
              injection h with hr
              subst hr
              exact ⟨by simpa using h1, by simpa using h2, rfl, rfl, fun hc => absurd hc h3⟩

theorem deployBody_ok_inv (nk : String) (env : NetworkEnv) (now : Nat) (r : DeploymentResult)
    (h : (deployBody nk env now).1 = Except.ok r) :
    ∃ network, getNetworkQ nk = some network ∧
      deployBody nk env now = deployBodyWith network nk env now := by
  cases hn : getNetworkQ nk with
  | none =>
      rw [deployBody, hn] at h
      cases h
  | some network =>
      exact ⟨network, rfl, deployBody_some nk network env now hn⟩

theorem deploySafeOnNetwork_ok_inv (queue : List String) (safeId nk : String)
    (cfg : ISafeConfig) (env : NetworkEnv) (now : Nat) (r : DeploymentResult)
    (h : (deploySafeOnNetwork queue safeId nk cfg env now).result = Except.ok r) :
    queue.contains (deploymentCacheKey safeId nk) = false ∧
    (deployBody nk env now).1 = Except.ok r ∧
    (deploySafeOnNetwork queue safeId nk cfg env now).queueAfter = queue ∧
    (deploySafeOnNetwork queue safeId nk cfg env now).txSubmitted = (deployBody nk env now).2 := by
  unfold deploySafeOnNetwork at h ⊢
  by_cases hc : queue.contains (deploymentCacheKey safeId nk) = true
  · rw [if_pos hc] at h
    cases h
  · have hc' : queue.contains (deploymentCacheKey safeId nk) = false := by
      cases hcv : queue.contains (deploymentCacheKey safeId nk) with
      | true => exact absurd hcv hc
      | false => rfl
    rw [if_neg hc] at h
    rw [if_neg hc]
    refine ⟨hc', h, ?_, rfl⟩
    simp [List.erase_cons_head]

theorem deploySafeOnNetwork_eq_of_not_inflight (queue : List String) (safeId nk : String)
    (cfg : ISafeConfig) (env : NetworkEnv) (now : Nat)
    (hc : queue.contains (deploymentCacheKey safeId nk) = false) :
    deploySafeOnNetwork queue safeId nk cfg env now =
      { result := (deployBody nk env now).1
        txSubmitted := (deployBody nk env now).2
        queueAfter := queue } := by
  unfold deploySafeOnNetwork
  rw [if_neg (by simpa using hc)]
  simp [List.erase_cons_head]

theorem map_fst_pairup {β : Type} (l : List String) (g : String → β) :
    List.map Prod.fst (List.map (fun nk => (nk, g nk)) l) = l := by
  induction l with
  | nil => rfl
  | cons hd tl ih => simp [ih]

theorem map_proj_triple {β γ : Type} (l : List String) (a : β) (c : γ) :
    List.map (fun p => p.2.1) (List.map (fun nk => (a, nk, c)) l) = l := by
  induction l with
  | nil => rfl
  | cons hd tl ih => simp [ih]

/-! Claim theorems. -/

/-- C1: in deploySafesForUser, every per-network outcome is captured
independently: a network whose settled outcome is fulfilled appears in the
returned deployments record with exactly that value, and a network whose
outcome rejected appears as a failed entry carrying that error message —
each entry depends only on its own network's outcome, so no failure
cancels, blocks, or discards a sibling's result. -/
theorem deploySafesForUser_partial_failure_isolation
    (userInfo : IUserInfo) (cfg : DeploymentConfig) (agentAddress saltNonce safeId : String)
    (now : Nat) (exec : String → Except String DeploymentResult)
    (resp : SafeDeploymentResponse) (safe' : ISafe)
    (hnd : (cfg.networks.getD defaultNetworks).Nodup)
    (hok : deploySafesForUser userInfo cfg agentAddress saltNonce safeId now exec =
      Except.ok (resp, safe'))
    (nk : String) (hmem : nk ∈ cfg.networks.getD defaultNetworks) :
    (∀ r, exec nk = Except.ok r → alookup resp.deployments nk = some r) ∧
    (∀ e, exec nk = Except.error e →
      alookup resp.deployments nk = some (mkFailedResult now nk e) ∧
      (mkFailedResult now nk e).deploymentStatus = DeploymentStatus.failed ∧
      (mkFailedResult now nk e).error = some e) := by
  obtain ⟨hdep, -, -, -, -⟩ :=
    deploySafesForUser_ok_eq userInfo cfg agentAddress saltNonce safeId now exec resp safe' hok
  constructor
  · intro r hr
    rw [hdep, alookup_processResults now _ exec nk hnd hmem, hr]
  · intro e he
    rw [hdep, alookup_processResults now _ exec nk hnd hmem, he]
    exact ⟨rfl, rfl, rfl⟩

/-- Witness for C1: in the three-network run where exactly the middle
network rejects, the first network's successful result is kept and the
middle network appears as a failed entry carrying its error message. -/
theorem deploySafesForUser_partial_failure_isolation_witness :
    alookup respB.deployments "sepolia" = some (okRec "sepolia") ∧
    alookup respB.deployments "arbitrum_sepolia" =
      some (mkFailedResult 0 "arbitrum_sepolia" "insufficient funds") := by
  have h1 := deploySafesForUser_partial_failure_isolation userA cfgThree agentAddr saltW
    "vault-3" 0 execBfails respB safeB (by decide) rfl "sepolia" (by decide)
  have h2 := deploySafesForUser_partial_failure_isolation userA cfgThree agentAddr saltW
    "vault-3" 0 execBfails respB safeB (by decide) rfl "arbitrum_sepolia" (by decide)
  exact ⟨h1.1 (okRec "sepolia") rfl, (h2.2 "insufficient funds" rfl).1⟩

/-- C2 counterexample: when every requested network fails, deploySafesForUser
does not reject — it returns a successful response with zero successful
deployments (the claimed aggregate rejection does not happen at this level),
while the persisted vault record stays in status initializing. -/
theorem deploySafesForUser_allfail_returns_ok_cex :
    deploySafesForUser userA cfgSepoliaOnly agentAddr saltW "vault-1" 0 execAllFail =
      Except.ok (respAllFail, vaultAllFail) ∧
    countSuccessfulDeployments respAllFail.deployments = 0 ∧
    vaultAllFail.status = SafeStatus.initializing := ⟨rfl, rfl, rfl⟩

/-- C2 amended: deploySafesForUser itself never raises an aggregate error
after the attempts settle; the all-failed condition is detected by the HTTP
controller, which reports the aggregate failure exactly when the count of
successful deployments is zero, and in that case the persisted vault record
remains in status initializing (it is not deleted). -/
theorem deploySafesForUser_allfail_amended
    (userInfo : IUserInfo) (cfg : DeploymentConfig) (agentAddress saltNonce safeId : String)
    (now : Nat) (exec : String → Except String DeploymentResult)
    (resp : SafeDeploymentResponse) (safe' : ISafe)
    (hok : deploySafesForUser userInfo cfg agentAddress saltNonce safeId now exec =
      Except.ok (resp, safe')) :
    (controllerReportsAllFailed resp = true ↔
      countSuccessfulDeployments resp.deployments = 0) ∧
    ((∀ nk ∈ cfg.networks.getD defaultNetworks, ∃ e, exec nk = Except.error e) →
      controllerReportsAllFailed resp = true ∧
      hasSuccessfulDeployment resp.deployments = false ∧
      safe'.status = SafeStatus.initializing) := by
  obtain ⟨hdep, -, -, -, hsafe⟩ :=
    deploySafesForUser_ok_eq userInfo cfg agentAddress saltNonce safeId now exec resp safe' hok
  constructor
  · simp [controllerReportsAllFailed]
  · intro hall
    have hfail : ∀ p ∈ (cfg.networks.getD defaultNetworks).map (fun nk => (nk, exec nk)),
        ∃ e, p.2 = Except.error e := by
      intro p hp
      obtain ⟨nk, hnk, hpe⟩ := List.mem_map.mp hp
      subst hpe
      exact hall nk hnk
    have hcount : countSuccessfulDeployments resp.deployments = 0 := by
      rw [hdep]
      exact countSuccessful_processResults_allfail now _ hfail
    have hsuc : hasSuccessfulDeployment resp.deployments = false := by
      rw [hdep]
      exact hasSuccess_processResults_allfail now _ hfail
    refine ⟨by simp [controllerReportsAllFailed, hcount], hsuc, ?_⟩
    rw [hsafe, updateSafeDeployments_status]
    simp [hsuc]

/-- Witness for C2's amended theorem: applied to the all-failed sepolia run,
the controller reports the aggregate failure and the vault stays
initializing. -/
theorem deploySafesForUser_allfail_amended_witness :
    controllerReportsAllFailed respAllFail = true ∧
    vaultAllFail.status = SafeStatus.initializing := by
  have h := deploySafesForUser_allfail_amended userA cfgSepoliaOnly agentAddr saltW
    "vault-1" 0 execAllFail respAllFail vaultAllFail rfl
  obtain ⟨ha, -, hb⟩ := h.2 (by
    intro nk hnk
    exact ⟨"RPC unreachable", rfl⟩)
  exact ⟨ha, hb⟩

/-- C10: for every deploySafesForUser call, whatever the caller-supplied
options, the generated creation parameters have exactly the two owners
user wallet then agent wallet in that order, threshold one, and
safeVersion 1.4.1; the persisted record carries the same parameters. -/
theorem deploySafesForUser_config_shape
    (userInfo : IUserInfo) (cfg : DeploymentConfig) (agentAddress saltNonce safeId : String)
    (now : Nat) (exec : String → Except String DeploymentResult)
    (resp : SafeDeploymentResponse) (safe' : ISafe)
    (hok : deploySafesForUser userInfo cfg agentAddress saltNonce safeId now exec =
      Except.ok (resp, safe')) :
    resp.config.owners = [userInfo.walletAddress, agentAddress] ∧
    resp.config.owners.length = 2 ∧
    resp.config.threshold = 1 ∧
    resp.config.safeVersion = "1.4.1" ∧
    resp.config.saltNonce = saltNonce ∧
    safe'.config = resp.config := by
  obtain ⟨-, hcfg, -, -, hsafe⟩ :=
    deploySafesForUser_ok_eq userInfo cfg agentAddress saltNonce safeId now exec resp safe' hok
  refine ⟨by rw [hcfg]; rfl, by rw [hcfg]; rfl, by rw [hcfg]; rfl, by rw [hcfg]; rfl,
    by rw [hcfg]; rfl, ?_⟩
  rw [hsafe, updateSafeDeployments_config, hcfg]

/-- Witness for C10: the middle-failure run's response carries the two
fixed owners, threshold one and version 1.4.1. -/
theorem deploySafesForUser_config_shape_witness :
    respB.config.owners = [userA.walletAddress, agentAddr] ∧
    respB.config.threshold = 1 ∧
    respB.config.safeVersion = "1.4.1" := by
  have h := deploySafesForUser_config_shape userA cfgThree agentAddr saltW
    "vault-3" 0 execBfails respB safeB rfl
  exact ⟨h.1, h.2.2.1, h.2.2.2.1⟩

/-- C3 counterexample: with two successful deployments at distinct
addresses, getCommonAddress is not absent — it returns the first successful
address, contradicting the claim that it is undefined when more than one
distinct address appears. -/
theorem getCommonAddress_distinct_addresses_cex :
    depAddrA.address ≠ depAddrB.address ∧
    getCommonAddress [("sepolia", depAddrA), ("base_sepolia", depAddrB)] =
      some depAddrA.address ∧
    getCommonAddress [("sepolia", depAddrA), ("base_sepolia", depAddrB)] ≠ none := by
  refine ⟨by decide, rfl, by decide⟩

/-- C3 amended: the commonAddress returned by an orchestration call always
equals getCommonAddress of its deployments; that value is absent exactly
when no deployment succeeded, and otherwise is the first successful
deployment's address — even when the successful addresses differ (a
determinism violation only produces a warning).  When all successful
deployments share one address, the result equals that shared per-network
address. -/
theorem getCommonAddress_amended :
    (∀ userInfo cfg agentAddress saltNonce safeId now exec
        (resp : SafeDeploymentResponse) (safe' : ISafe),
      deploySafesForUser userInfo cfg agentAddress saltNonce safeId now exec =
          Except.ok (resp, safe') →
      resp.commonAddress = getCommonAddress resp.deployments) ∧
    (∀ safe newNetworks now exec (resp : SafeDeploymentResponse) (safe' : ISafe),
      expandSafeToNetworks safe newNetworks now exec = Except.ok (resp, safe') →
      resp.commonAddress = getCommonAddress resp.deployments) ∧
    (∀ deployments : List (String × DeploymentResult),
      (getCommonAddress deployments = none ↔
        (deployments.map Prod.snd).filter isDeployedResult = [])) ∧
    (∀ (deployments : List (String × DeploymentResult)) d rest,
      (deployments.map Prod.snd).filter isDeployedResult = d :: rest →
      getCommonAddress deployments = some d.address) ∧
    (∀ (deployments : List (String × DeploymentResult)) (a : String),
      (deployments.map Prod.snd).filter isDeployedResult ≠ [] →
      (∀ d ∈ (deployments.map Prod.snd).filter isDeployedResult, d.address = a) →
      getCommonAddress deployments = some a) := by
  refine ⟨?_, ?_, ?_, ?_, ?_⟩
  · intro userInfo cfg agentAddress saltNonce safeId now exec resp safe' hok
    exact (deploySafesForUser_ok_eq userInfo cfg agentAddress saltNonce safeId now exec
      resp safe' hok).2.2.1
  · intro safe newNetworks now exec resp safe' hok
    exact (expandSafeToNetworks_ok_eq safe newNetworks now exec resp safe' hok).2.2.1
  · intro deployments
    unfold getCommonAddress
    cases hf : (deployments.map Prod.snd).filter isDeployedResult with
    | nil => simp
    | cons d rest => simp
  · intro deployments d rest hf
    unfold getCommonAddress
    rw [hf]
  · intro deployments a hne hall
    unfold getCommonAddress
    cases hf : (deployments.map Prod.snd).filter isDeployedResult with
    | nil => exact absurd hf hne
    | cons d rest =>
        exact congrArg some (hall d (hf ▸ List.mem_cons_self _ _))

/-- Witness for C3's amended theorem: one successful deployment gives its
own address as the common address, and the expansion run's response has
commonAddress equal to getCommonAddress of its deployments. -/
theorem getCommonAddress_amended_witness :
    getCommonAddress [("sepolia", depAddrA)] = some depAddrA.address ∧
    respExp.commonAddress = getCommonAddress respExp.deployments := by
  constructor
  · exact getCommonAddress_amended.2.2.2.1 [("sepolia", depAddrA)] depAddrA [] rfl
  · exact getCommonAddress_amended.2.1 vaultCovered ["sepolia", "base_sepolia"] 0 execExpOk
      respExp safeExp rfl

/-- C4 counterexample: a failed per-network result is not recorded into the
persisted vault record's deployment mapping — after updateSafeDeployments
processes a single failed result, the mapping still has no entry for that
network, contradicting the claim that failed results are persisted as
failed records. -/
theorem updateSafeDeployments_failed_not_persisted_cex :
    (mkFailedResult 0 "sepolia" "boom").deploymentStatus = DeploymentStatus.failed ∧
    alookup (updateSafeDeployments vaultEmpty
      [("sepolia", mkFailedResult 0 "sepolia" "boom")]).deployments "sepolia" = none :=
  ⟨rfl, rfl⟩

/-- C4 amended: after the fan-out settles, only the successful (deployed)
results are recorded into the persisted vault record's deployment mapping,
each as a full record with isActive true; a failed result leaves the
persisted mapping unchanged for its network (failed entries appear only in
the returned response, which C1 covers). -/
theorem updateSafeDeployments_persists_only_deployed
    (safe : ISafe) (results : List (String × DeploymentResult))
    (hnd : (results.map Prod.fst).Nodup) (nk : String) (r : DeploymentResult)
    (hmem : (nk, r) ∈ results) :
    alookup (updateSafeDeployments safe results).deployments nk =
      (if isDeployedResult r then some (toPersistedDeployment nk r)
       else alookup safe.deployments nk) := by
  rw [updateSafeDeployments_deployments]
  exact alookup_recordDeployedResults_mem safe results nk r hnd hmem

/-- Witness for C4's amended theorem: a deployed result is persisted as its
full record with isActive true. -/
theorem updateSafeDeployments_persists_only_deployed_witness :
    alookup (updateSafeDeployments vaultEmpty [("sepolia", depOkSep)]).deployments "sepolia" =
      some (toPersistedDeployment "sepolia" depOkSep) ∧
    (toPersistedDeployment "sepolia" depOkSep).isActive = true := by
  have h := updateSafeDeployments_persists_only_deployed vaultEmpty
    [("sepolia", depOkSep)] (by decide) "sepolia" depOkSep (List.mem_singleton.mpr rfl)
  rw [h]
  exact ⟨rfl, rfl⟩

/-- C6: the vault status moves from initializing to active exactly when at
least one deployment in the processed result set succeeded and the current
status was initializing, both in the creation-path update and in the
expansion path; a record already active stays active through any further
update, so the promotion happens at most once and no later per-network
failure demotes the status. -/
theorem vault_status_promotion (safe : ISafe) (results : List (String × DeploymentResult)) :
    ((safe.status = SafeStatus.initializing ∧
        (updateSafeDeployments safe results).status = SafeStatus.active) ↔
      (hasSuccessfulDeployment results = true ∧ safe.status = SafeStatus.initializing)) ∧
    (safe.status = SafeStatus.active →
      (updateSafeDeployments safe results).status = SafeStatus.active) ∧
    (∀ newNetworks now exec (resp : SafeDeploymentResponse) (safe' : ISafe),
      expandSafeToNetworks safe newNetworks now exec = Except.ok (resp, safe') →
      ((safe.status = SafeStatus.initializing ∧ safe'.status = SafeStatus.active) ↔
        (hasSuccessfulDeployment resp.deployments = true ∧
          safe.status = SafeStatus.initializing)) ∧
      (safe.status = SafeStatus.active → safe'.status = SafeStatus.active)) := by
  have hcore : ∀ res : List (String × DeploymentResult),
      ((safe.status = SafeStatus.initializing ∧
          (updateSafeDeployments safe res).status = SafeStatus.active) ↔
        (hasSuccessfulDeployment res = true ∧ safe.status = SafeStatus.initializing)) ∧
      (safe.status = SafeStatus.active →
        (updateSafeDeployments safe res).status = SafeStatus.active) := by
    intro res
    constructor
    · rw [updateSafeDeployments_status]
      by_cases hs : hasSuccessfulDeployment res <;>
        by_cases hi : safe.status = SafeStatus.initializing <;>
          simp [hs, hi]
    · intro ha
      rw [updateSafeDeployments_status]
      simp [ha]
  refine ⟨(hcore results).1, (hcore results).2, ?_⟩
  intro newNetworks now exec resp safe' hok
  obtain ⟨-, -, -, -, hsafe⟩ := expandSafeToNetworks_ok_eq safe newNetworks now exec resp safe' hok
  subst hsafe
  exact hcore resp.deployments

/-- Witness for C6: a single successful result promotes the empty
initializing vault to active. -/
theorem vault_status_promotion_witness :
    (updateSafeDeployments vaultEmpty [("sepolia", depOkSep)]).status = SafeStatus.active := by
  have h := vault_status_promotion vaultEmpty [("sepolia", depOkSep)]
  exact (h.1.mpr ⟨rfl, rfl⟩).2

/-- C7: expansion attempts deployment exactly on the requested networks on
which the vault does not already hold a deployed-and-active record; the
call fails with the no-networks-to-expand error precisely when that
filtered set is empty, and an already-covered network's persisted record is
left untouched by a successful expansion. -/
theorem expand_filters_covered_networks (safe : ISafe) (newNetworks : List String)
    (now : Nat) (exec : String → ISafeConfig → Except String DeploymentResult) :
    ((expandSafeToNetworks safe newNetworks now exec =
        Except.error "Safe already deployed on all specified networks") ↔
      newNetworks.filter (fun n => !(isDeployedOnNetwork safe n)) = []) ∧
    (∀ (resp : SafeDeploymentResponse) (safe' : ISafe),
      expandSafeToNetworks safe newNetworks now exec = Except.ok (resp, safe') →
      resp.deployments.map Prod.fst =
        newNetworks.filter (fun n => !(isDeployedOnNetwork safe n)) ∧
      (∀ nk, isDeployedOnNetwork safe nk = true →
        alookup safe'.deployments nk = alookup safe.deployments nk)) := by
  refine ⟨expandSafeToNetworks_error_iff safe newNetworks now exec, ?_⟩
  intro resp safe' hok
  obtain ⟨hdep, -, -, -, hsafe⟩ :=
    expandSafeToNetworks_ok_eq safe newNetworks now exec resp safe' hok
  have hkeys : resp.deployments.map Prod.fst =
      newNetworks.filter (fun n => !(isDeployedOnNetwork safe n)) := by
    rw [hdep, processResults_map_fst]
    exact map_fst_pairup _ _
  refine ⟨hkeys, ?_⟩
  intro nk hcov
  have hnot : nk ∉ resp.deployments.map Prod.fst := by
    rw [hkeys]
    intro hmem
    have := (List.mem_filter.mp hmem).2
    simp [hcov] at this
  rw [hsafe, updateSafeDeployments_deployments]
  exact alookup_recordDeployedResults_notmem safe resp.deployments nk hnot

/-- Witness for C7: a fully covered request fails with the expected error,
and the mixed request attempts only the uncovered network while leaving the
covered network's persisted record unchanged. -/
theorem expand_filters_covered_networks_witness :
    expandSafeToNetworks vaultCovered ["sepolia"] 0 execExpOk =
      Except.error "Safe already deployed on all specified networks" ∧
    respExp.deployments.map Prod.fst = ["base_sepolia"] ∧
    alookup safeExp.deployments "sepolia" = alookup vaultCovered.deployments "sepolia" := by
  have herr := (expand_filters_covered_networks vaultCovered ["sepolia"] 0 execExpOk).1.mpr
    (by decide)
  have hw := (expand_filters_covered_networks vaultCovered ["sepolia", "base_sepolia"] 0
    execExpOk).2 respExp safeExp rfl
  exact ⟨herr, hw.1.trans (by decide), hw.2 "sepolia" (by decide)⟩

/-- C8: expansion passes the vault's stored creation parameters verbatim to
every new per-network attempt — each attempt triple carries exactly the
stored config and vault id, the attempted network list is the uncovered
delta — and no orchestration step changes the persisted parameters: after a
successful expansion both the response and the stored record carry the
original config unchanged. -/
theorem expand_reuses_creation_params (safe : ISafe) (newNetworks : List String) :
    (∀ p ∈ expansionAttemptParams safe newNetworks,
      p.2.2 = safe.config ∧ p.1 = safe.safeId) ∧
    ((expansionAttemptParams safe newNetworks).map (fun p => p.2.1) =
      newNetworks.filter (fun n => !(isDeployedOnNetwork safe n))) ∧
    (∀ now exec (resp : SafeDeploymentResponse) (safe' : ISafe),
      expandSafeToNetworks safe newNetworks now exec = Except.ok (resp, safe') →
      resp.config = safe.config ∧ safe'.config = safe.config ∧
      safe'.config.saltNonce = safe.config.saltNonce ∧
      safe'.config.owners = safe.config.owners ∧
      safe'.config.threshold = safe.config.threshold) := by
  refine ⟨?_, ?_, ?_⟩
  · intro p hp
    obtain ⟨nk, hnk, hpe⟩ := List.mem_map.mp hp
    subst hpe
    exact ⟨rfl, rfl⟩
  · unfold expansionAttemptParams
    exact map_proj_triple _ _ _
  · intro now exec resp safe' hok
    obtain ⟨-, hcfg, -, -, hsafe⟩ :=
      expandSafeToNetworks_ok_eq safe newNetworks now exec resp safe' hok
    have hc2 : safe'.config = safe.config := by
      rw [hsafe, updateSafeDeployments_config]
    exact ⟨hcfg, hc2, by rw [hc2], by rw [hc2], by rw [hc2]⟩

/-- Witness for C8: the sample expansion reuses the stored config verbatim
in its attempt list, its response and its persisted record. -/
theorem expand_reuses_creation_params_witness :
    respExp.config = vaultCovered.config ∧
    safeExp.config = vaultCovered.config ∧
    expansionAttemptParams vaultCovered ["sepolia", "base_sepolia"] =
      [("vault-4", "base_sepolia", vaultCovered.config)] := by
  have h := (expand_reuses_creation_params vaultCovered ["sepolia", "base_sepolia"]).2.2
    0 execExpOk respExp safeExp rfl
  exact ⟨h.1, h.2.1, by decide⟩

/-- C5: a deployment attempt is idempotent per network.  When the contract
already sits at the predicted address (and execution reaches the check),
the attempt short-circuits: no transaction is submitted and the result is
the pre-existing deployed record at the predicted address.  Consequently a
second invocation with identical parameters after a successful first one
returns status deployed with isExisting true and the same address, and
submits no second transaction. -/
theorem deploySafeOnNetwork_idempotent
    (queue : List String) (safeId nk : String) (cfg : ISafeConfig) (env : NetworkEnv)
    (now now2 : Nat) (r : DeploymentResult)
    (h1 : (deploySafeOnNetwork queue safeId nk cfg env now).result = Except.ok r) :
    (env.codeAtPredicted = true →
      (deploySafeOnNetwork queue safeId nk cfg env now).txSubmitted = false ∧
      r.isExisting = some true ∧ r.address = env.predictedAddress) ∧
    (∃ r2,
      (deploySafeOnNetwork (deploySafeOnNetwork queue safeId nk cfg env now).queueAfter
          safeId nk cfg (envAfterAttempt env nk now) now2).result = Except.ok r2 ∧
      r2.deploymentStatus = DeploymentStatus.deployed ∧
      r2.isExisting = some true ∧
      r2.address = r.address ∧
      (deploySafeOnNetwork (deploySafeOnNetwork queue safeId nk cfg env now).queueAfter
          safeId nk cfg (envAfterAttempt env nk now) now2).txSubmitted = false) := by
  obtain ⟨hc, hbody, hq, htx⟩ := deploySafeOnNetwork_ok_inv queue safeId nk cfg env now r h1
  obtain ⟨network, hn, hbe⟩ := deployBody_ok_inv nk env now r hbody
  rw [hbe] at hbody htx
  obtain ⟨hbal, hinit, haddr, hstat, hcode⟩ := deployBodyWith_ok_inv network nk env now r hbody
  constructor
  · intro hcp
    obtain ⟨ht, hex⟩ := hcode hcp
    refine ⟨?_, hex, haddr⟩
    rw [htx]
    exact ht
  · have henv : envAfterAttempt env nk now = { env with codeAtPredicted := true } := by
      unfold envAfterAttempt
      rw [hbe]
      cases hdb : deployBodyWith network nk env now with
      | mk res tx =>
          rw [hdb] at hbody
          cases res with
          | ok rr => rfl
          | error e => simp at hbody
    have hbody2 : deployBody nk { env with codeAtPredicted := true } now2 =
        (Except.ok
          { networkKey := nk
            chainId := network.chainId
            address := env.predictedAddress
            deploymentStatus := DeploymentStatus.deployed
            deploymentTimestamp := now2
            explorerUrl := some (network.explorer ++ "/address/" ++ env.predictedAddress)
            isExisting := some true }, false) := by
      rw [deployBody_some nk network _ now2 hn]
      unfold deployBodyWith
      rw [if_neg (by simp [hbal]), if_neg (by simp [hinit]), if_pos rfl]
    rw [hq, deploySafeOnNetwork_eq_of_not_inflight queue safeId nk cfg _ now2 hc, henv, hbody2]
    refine ⟨_, rfl, rfl, rfl, haddr.symm, rfl⟩

/-- Witness for C5: under the environment with code already at the
predicted address, the first sepolia attempt submits nothing and a second
identical attempt returns the same address as pre-existing, again without
submitting. -/
theorem deploySafeOnNetwork_idempotent_witness :
    (deploySafeOnNetwork [] "vault-1" "sepolia" cfgW envW 0).txSubmitted = false ∧
    rW.isExisting = some true ∧
    (∃ r2,
      (deploySafeOnNetwork (deploySafeOnNetwork [] "vault-1" "sepolia" cfgW envW 0).queueAfter
          "vault-1" "sepolia" cfgW (envAfterAttempt envW "sepolia" 0) 1).result =
        Except.ok r2 ∧
      r2.deploymentStatus = DeploymentStatus.deployed ∧
      r2.isExisting = some true ∧
      r2.address = rW.address ∧
      (deploySafeOnNetwork (deploySafeOnNetwork [] "vault-1" "sepolia" cfgW envW 0).queueAfter
          "vault-1" "sepolia" cfgW (envAfterAttempt envW "sepolia" 0) 1).txSubmitted = false) := by
  have h := deploySafeOnNetwork_idempotent [] "vault-1" "sepolia" cfgW envW 0 1 rW rfl
  obtain ⟨ht, hex, -⟩ := h.1 rfl
  exact ⟨ht, hex, h.2⟩

/-- C9: the in-flight guard rejects a second concurrent attempt for the
same (vaultId, networkKey) pair while one is in flight, and on every exit
path of an attempt — whatever the body's outcome — the in-flight mark is
removed, so the resulting queue no longer holds the pair and it can be
acquired again. -/
theorem deployment_guard_acquire_release
    (queue : List String) (safeId nk : String) (cfg : ISafeConfig) (env : NetworkEnv)
    (now : Nat) :
    (queue.contains (deploymentCacheKey safeId nk) = true →
      (deploySafeOnNetwork queue safeId nk cfg env now).result =
        Except.error ("Deployment already in progress for " ++ nk) ∧
      (deploySafeOnNetwork queue safeId nk cfg env now).txSubmitted = false ∧
      (deploySafeOnNetwork queue safeId nk cfg env now).queueAfter = queue) ∧
    (queue.contains (deploymentCacheKey safeId nk) = false →
      (deploySafeOnNetwork queue safeId nk cfg env now).queueAfter = queue ∧
      (deploySafeOnNetwork queue safeId nk cfg env now).queueAfter.contains
        (deploymentCacheKey safeId nk) = false) := by
  constructor
  · intro hc
    unfold deploySafeOnNetwork
    rw [if_pos hc]
    exact ⟨rfl, rfl, rfl⟩
  · intro hc
    rw [deploySafeOnNetwork_eq_of_not_inflight queue safeId nk cfg env now hc]
    exact ⟨rfl, hc⟩

/-- Witness for C9: with the pair already marked in flight the attempt is
rejected, and an attempt that starts from an empty queue ends with the pair
released. -/
theorem deployment_guard_acquire_release_witness :
    (deploySafeOnNetwork [deploymentCacheKey "vault-1" "sepolia"] "vault-1" "sepolia"
        cfgW envW 0).result =
      Except.error ("Deployment already in progress for " ++ "sepolia") ∧
    (deploySafeOnNetwork [] "vault-1" "sepolia" cfgW envW 0).queueAfter = [] ∧
    (deploySafeOnNetwork [] "vault-1" "sepolia" cfgW envW 0).queueAfter.contains
      (deploymentCacheKey "vault-1" "sepolia") = false := by
  have h1 := (deployment_guard_acquire_release [deploymentCacheKey "vault-1" "sepolia"]
    "vault-1" "sepolia" cfgW envW 0).1 (by decide)
  have h2 := (deployment_guard_acquire_release [] "vault-1" "sepolia" cfgW envW 0).2 rfl
  exact ⟨h1.1, h2.1, h2.2⟩

end SafeVault
